import Mathlib

/-!
# Verification of the iotex-core excerpt: account state, codec, and node orchestration

Shallow embedding of the Go sources `state/state.go` and `server/itx/server.go`.

* `state/state.go`: the `State` record, its gob serialization
  (`stateToBytes` / `bytesToState`), the balance mutators `AddBalance` /
  `SubBalance`, and the private `clone`.
* `server/itx/server.go`: the `bcService` message handlers, `NewServer`
  (with the fall-back-to-fresh-DB branch), and `Server.Start` / `Server.Stop`.

Go machine values are embedded as follows: `*big.Int` values become `Int`
(arbitrary precision, signed, as in Go); `[]byte`, `string` and `hash.Hash32B`
become `List Nat` (Go strings and hashes are raw byte sequences);
`map[string]*big.Int` becomes an association list; a Go `error` result becomes
an `Option` of an error code (`none` = the `nil` error). A Go method that
mutates its receiver and returns `error` becomes a function returning the
updated record paired with the error.
-/

/-- Go byte sequences (`[]byte`, `string`, `hash.Hash32B` contents). -/
abbrev GoBytes := List Nat

/-- The error values of package `state` that the excerpt returns:
`ErrNotEnoughBalance`, `ErrFailedToMarshalState`, `ErrFailedToUnmarshalState`. -/
inductive StateError where
  | errNotEnoughBalance
  | errFailedToMarshalState
  | errFailedToUnmarshalState
deriving DecidableEq

/-- `state.State` (state.go lines 17-29): the canonical representation of an
account.  `Balance` and `VotingWeight` are the pointed-to `big.Int` values
(the claims under consideration concern well-formed states, whose pointers
are non-nil, so the pointee value is the faithful representation here; the
aliasing behaviour of the pointers themselves is modelled separately for
`clone`, see `StateRef` below).  `CodeHash` is a nullable byte slice, so an
`Option`; `Voters` is the `map[string]*big.Int` as an association list,
`none` standing for the nil map. -/
structure State where
  Nonce : Nat
  Balance : Int
  Root : GoBytes
  CodeHash : Option GoBytes
  IsCandidate : Bool
  VotingWeight : Int
  Votee : GoBytes
  Voters : Option (List (GoBytes × Int))
deriving DecidableEq

/-- `(x : big.Int).Cmp y` from `math/big`: -1 if x < y, 0 if x = y, +1 if x > y. -/
def bigIntCmp (x y : Int) : Int :=
  if x < y then -1 else if x = y then 0 else 1

/-- `(st *State) AddBalance(amount)` (state.go lines 49-53):
`st.Balance.Add(st.Balance, amount); return nil`.  Returns the updated state
and the (always nil) error. -/
def State.AddBalance (st : State) (amount : Int) : State × Option StateError :=
  ({ st with Balance := st.Balance + amount }, none)

/-- `(st *State) SubBalance(amount)` (state.go lines 55-63): if
`amount.Cmp(st.Balance) == 1` return `ErrNotEnoughBalance` (leaving the
receiver untouched, since the return precedes the mutation); otherwise
`st.Balance.Sub(st.Balance, amount); return nil`. -/
def State.SubBalance (st : State) (amount : Int) : State × Option StateError :=
  if bigIntCmp amount st.Balance = 1 then
    (st, some StateError.errNotEnoughBalance)
  else
    ({ st with Balance := st.Balance - amount }, none)

/-- A concrete account state used by the balance-operation witnesses. -/
def sampleStateA : State :=
  { Nonce := 1, Balance := 5, Root := [], CodeHash := none, IsCandidate := false,
    VotingWeight := 0, Votee := [], Voters := none }

/-- A concrete account state used by the balance-operation witnesses. -/
def sampleStateB : State :=
  { Nonce := 0, Balance := 10, Root := [], CodeHash := none, IsCandidate := false,
    VotingWeight := 2, Votee := [], Voters := none }

theorem bigIntCmp_eq_one_iff (x y : Int) : bigIntCmp x y = 1 ↔ y < x := by
  unfold bigIntCmp
  split_ifs with h1 h2
  · constructor
    · intro h
      exact absurd h (by norm_num)
    · intro h; exact absurd h1 (by omega)
  · constructor
    · intro h
      exact absurd h (by norm_num)
    · intro h; exact absurd h2 (by omega)
  · constructor
    · intro _; omega
    · intro _; rfl

/-- C1: for every account state with balance `b` and every amount `a ≥ 0`,
`SubBalance a` fails with `ErrNotEnoughBalance` exactly when `a > b`; in the
failing case the whole state (in particular the balance) is unchanged, and
otherwise it succeeds and the balance becomes `b - a`. -/
theorem subBalance_insufficient_iff_C1 (st : State) (a : Int) (ha : 0 ≤ a) :
    ((st.SubBalance a).2 = some StateError.errNotEnoughBalance ↔ st.Balance < a) ∧
    (st.Balance < a → (st.SubBalance a).1 = st) ∧
    (a ≤ st.Balance →
      (st.SubBalance a).2 = none ∧ (st.SubBalance a).1.Balance = st.Balance - a) := by
  unfold State.SubBalance
  split_ifs with h
  · rw [bigIntCmp_eq_one_iff] at h
    refine ⟨by simpa using h, fun _ => rfl, fun hle => absurd h (by omega)⟩
  · rw [bigIntCmp_eq_one_iff] at h
    refine ⟨by simpa using h, fun hlt => absurd hlt h, fun _ => ⟨rfl, rfl⟩⟩

/-- C1 witness at the concrete state `sampleStateA` (balance 5) and amount 7. -/
theorem subBalance_insufficient_iff_C1_witness :
    0 ≤ (7 : Int) ∧
    (((sampleStateA.SubBalance 7).2 = some StateError.errNotEnoughBalance ↔
        sampleStateA.Balance < 7) ∧
      (sampleStateA.Balance < 7 → (sampleStateA.SubBalance 7).1 = sampleStateA) ∧
      ((7 : Int) ≤ sampleStateA.Balance →
        (sampleStateA.SubBalance 7).2 = none ∧
        (sampleStateA.SubBalance 7).1.Balance = sampleStateA.Balance - 7)) :=
  ⟨by decide, subBalance_insufficient_iff_C1 sampleStateA 7 (by decide)⟩

/-- C2: non-negativity of the balance is preserved by the account operations:
from a state with balance ≥ 0, `AddBalance` with amount ≥ 0 never fails and
leaves balance ≥ 0, and `SubBalance` with amount ≥ 0 leaves balance ≥ 0
(a debit that would go negative is rejected, leaving the old balance). -/
theorem balance_nonneg_invariant_C2 (st : State) (a : Int)
    (hb : 0 ≤ st.Balance) (ha : 0 ≤ a) :
    (st.AddBalance a).2 = none ∧
    0 ≤ (st.AddBalance a).1.Balance ∧
    0 ≤ (st.SubBalance a).1.Balance := by
  refine ⟨rfl, ?_, ?_⟩
  · show 0 ≤ st.Balance + a
    omega
  · unfold State.SubBalance
    split_ifs with h
    · exact hb
    · rw [bigIntCmp_eq_one_iff] at h
      show 0 ≤ st.Balance - a
      omega

/-- C2 witness at the concrete state `sampleStateA` (balance 5) and amount 9. -/
theorem balance_nonneg_invariant_C2_witness :
    0 ≤ sampleStateA.Balance ∧ 0 ≤ (9 : Int) ∧
    ((sampleStateA.AddBalance 9).2 = none ∧
      0 ≤ (sampleStateA.AddBalance 9).1.Balance ∧
      0 ≤ (sampleStateA.SubBalance 9).1.Balance) :=
  ⟨by decide, by decide,
   balance_nonneg_invariant_C2 sampleStateA 9 (by decide) (by decide)⟩

/-- C5: for a state with balance `b ≥ 0` and an amount `0 ≤ a ≤ b`,
`SubBalance a` followed by `AddBalance a` restores the balance to exactly `b`. -/
theorem sub_add_roundtrip_C5 (st : State) (a : Int)
    (hb : 0 ≤ st.Balance) (ha : 0 ≤ a) (hab : a ≤ st.Balance) :
    (((st.SubBalance a).1).AddBalance a).1.Balance = st.Balance := by
  unfold State.SubBalance State.AddBalance
  have h : ¬ bigIntCmp a st.Balance = 1 := by
    rw [bigIntCmp_eq_one_iff]; omega
  rw [if_neg h]
  show st.Balance - a + a = st.Balance
  omega

/-- C5 witness at the concrete state `sampleStateB` (balance 10) and amount 3. -/
theorem sub_add_roundtrip_C5_witness :
    0 ≤ sampleStateB.Balance ∧ 0 ≤ (3 : Int) ∧ (3 : Int) ≤ sampleStateB.Balance ∧
    (((sampleStateB.SubBalance 3).1).AddBalance 3).1.Balance = sampleStateB.Balance :=
  ⟨by decide, by decide, by decide,
   sub_add_roundtrip_C5 sampleStateB 3 (by decide) (by decide) (by decide)⟩

/-!
## The gob codec of `stateToBytes` / `bytesToState` (state.go lines 31-47)

`stateToBytes` runs `encoding/gob` on the whole `State` struct and
`bytesToState` decodes with the same package.  The embedding below follows
gob's documented behaviour on this struct:

* a struct value is transmitted as a sequence of (field number, field value)
  pairs in field-declaration order, closed by a terminator; fields holding
  the zero value of their type (`0`, `false`, zero-length slice/string/map,
  all-zero array, nil pointer) are omitted from the transmission and are left
  at their zero value by the decoder;
* `Nonce` is an unsigned integer, `Root`/`CodeHash`/`Votee` are byte
  sequences, `IsCandidate` a boolean, `Balance`/`VotingWeight` go through
  `big.Int`'s `GobEncode` (a sign indicator plus the magnitude bytes) and,
  being non-nil pointers, are always transmitted, and `Voters` is transmitted
  as an entry count followed by the key/value pairs;
* each transmitted item is self-delimiting (variable-length values carry
  their byte length), and the decoder fails on truncated or malformed input,
  which `bytesToState` maps to `ErrFailedToUnmarshalState`.

Bytes are `Nat` here; the field payloads are length-prefixed digit strings in
base 256.
-/

/-- Base-256 digit string of `n`, least significant first; `fuel`-bounded
structural recursion (`natDigits` supplies `fuel = n`, which suffices). -/
def natDigitsAux : Nat → Nat → List Nat
  | 0, _ => []
  | fuel + 1, n => if n = 0 then [] else n % 256 :: natDigitsAux fuel (n / 256)

/-- Base-256 digit string of `n`, least significant first. -/
def natDigits (n : Nat) : List Nat := natDigitsAux n n

/-- Value of a base-256 digit string, least significant first. -/
def natFromDigits : List Nat → Nat
  | [] => 0
  | d :: ds => d + 256 * natFromDigits ds

theorem natFromDigits_natDigitsAux :
    ∀ fuel n, n ≤ fuel → natFromDigits (natDigitsAux fuel n) = n := by
  intro fuel
  induction fuel with
  | zero =>
    intro n hn
    interval_cases n
    rfl
  | succ f ih =>
    intro n hn
    unfold natDigitsAux
    split_ifs with h0
    · simp [natFromDigits, h0]
    · have hdiv : n / 256 ≤ f := by
        have : n / 256 < n := Nat.div_lt_self (Nat.pos_of_ne_zero h0) (by omega)
        omega
      simp [natFromDigits, ih (n / 256) hdiv]
      omega

theorem natFromDigits_natDigits (n : Nat) : natFromDigits (natDigits n) = n :=
  natFromDigits_natDigitsAux n n (Nat.le_refl n)

/-- Length-prefixed unsigned integer payload. -/
def encNat (n : Nat) : List Nat := (natDigits n).length :: natDigits n

/-- `big.Int` payload: sign indicator then magnitude. -/
def encInt (x : Int) : List Nat := (if x < 0 then 1 else 0) :: encNat x.natAbs

/-- Length-prefixed byte-sequence payload (slices, strings, the hash array). -/
def encBytes (bs : GoBytes) : List Nat := bs.length :: bs

/-- Concatenated key/value pairs of the `Voters` map. -/
def encVoterList : List (GoBytes × Int) → List Nat
  | [] => []
  | (k, w) :: rest => encBytes k ++ encInt w ++ encVoterList rest

/-- Map payload: entry count then the key/value pairs. -/
def encVoters (vs : List (GoBytes × Int)) : List Nat := vs.length :: encVoterList vs

/-- A transmitted struct field: field number then payload; a zero-valued
(`present = False`) field is omitted. -/
def encField (idx : Nat) (present : Prop) [Decidable present]
    (payload : List Nat) : List Nat :=
  if present then idx :: payload else []

/-- The all-zero value of `hash.Hash32B`. -/
def zeroRoot : GoBytes := List.replicate 32 0

/-- gob transmission of a `State` value: fields in declaration order
(`Nonce` = 1 … `Voters` = 8), zero-valued fields omitted, `Balance` and
`VotingWeight` always present (non-nil pointers), closed by terminator 0.
The Go function also returns an `error`, which is always nil for these
in-memory values (gob encodes every field type of `State`), so the model
returns the bytes directly. -/
def stateToBytes (s : State) : List Nat :=
  encField 1 (¬ s.Nonce = 0) (encNat s.Nonce) ++
  encField 2 True (encInt s.Balance) ++
  encField 3 (¬ s.Root = zeroRoot) (encBytes s.Root) ++
  encField 4 (¬ s.CodeHash.getD [] = []) (encBytes (s.CodeHash.getD [])) ++
  encField 5 (s.IsCandidate = true) [1] ++
  encField 6 True (encInt s.VotingWeight) ++
  encField 7 (¬ s.Votee = []) (encBytes s.Votee) ++
  encField 8 (¬ s.Voters.getD [] = []) (encVoters (s.Voters.getD [])) ++
  [0]

/-- Decode a length-prefixed unsigned integer; fails on truncated input. -/
def parseNat : List Nat → Option (Nat × List Nat)
  | [] => none
  | c :: rest =>
    if c ≤ rest.length then some (natFromDigits (rest.take c), rest.drop c)
    else none

/-- Decode a `big.Int`: sign indicator then magnitude. -/
def parseInt : List Nat → Option (Int × List Nat)
  | [] => none
  | sb :: rest =>
    match parseNat rest with
    | none => none
    | some (n, r) => some (if sb = 1 then -(n : Int) else (n : Int), r)

/-- Decode a length-prefixed byte sequence; fails on truncated input. -/
def parseByteSeq : List Nat → Option (GoBytes × List Nat)
  | [] => none
  | c :: rest =>
    if c ≤ rest.length then some (rest.take c, rest.drop c) else none

/-- Decode a boolean payload. -/
def parseBool : List Nat → Option (Bool × List Nat)
  | [] => none
  | b :: rest => some (decide (¬ b = 0), rest)

/-- Decode `count` key/value pairs of the `Voters` map. -/
def parseVoterList : Nat → List Nat → Option (List (GoBytes × Int) × List Nat)
  | 0, bs => some ([], bs)
  | count + 1, bs =>
    match parseByteSeq bs with
    | none => none
    | some (k, bs1) =>
      match parseInt bs1 with
      | none => none
      | some (w, bs2) =>
        match parseVoterList count bs2 with
        | none => none
        | some (vs, bs3) => some ((k, w) :: vs, bs3)

/-- Decode a map payload: entry count then the pairs. -/
def parseVoters : List Nat → Option (List (GoBytes × Int) × List Nat)
  | [] => none
  | c :: rest => parseVoterList c rest

/-- Decode one optionally-present struct field: if the next field number is
`idx` the payload is consumed, otherwise the field was omitted and takes its
zero value `dflt`. -/
def parseField (idx : Nat) (p : List Nat → Option (α × List Nat)) (dflt : α) :
    List Nat → Option (α × List Nat)
  | [] => none
  | b :: rest => if b = idx then p rest else some (dflt, b :: rest)

/-- Decode the CodeHash field payload into the nullable slice. -/
def parseCodeHash (bs : List Nat) : Option (Option GoBytes × List Nat) :=
  (parseByteSeq bs).map (fun p => (some p.1, p.2))

/-- Decode the Voters field payload into the nullable map. -/
def parseVotersField (bs : List Nat) : Option (Option (List (GoBytes × Int)) × List Nat) :=
  (parseVoters bs).map (fun p => (some p.1, p.2))

/-- gob decode of a `State` value: the eight fields in order, each possibly
omitted, then the terminator. -/
def parseState (bs0 : List Nat) : Option State := do
  let (nonce, bs1) ← parseField 1 parseNat 0 bs0
  let (bal, bs2) ← parseField 2 parseInt 0 bs1
  let (root, bs3) ← parseField 3 parseByteSeq zeroRoot bs2
  let (ch, bs4) ← parseField 4 parseCodeHash none bs3
  let (cand, bs5) ← parseField 5 parseBool false bs4
  let (vw, bs6) ← parseField 6 parseInt 0 bs5
  let (votee, bs7) ← parseField 7 parseByteSeq [] bs6
  let (voters, bs8) ← parseField 8 parseVotersField none bs7
  match bs8 with
  | 0 :: _ => some ⟨nonce, bal, root, ch, cand, vw, votee, voters⟩
  | _ => none

/-- `bytesToState` (state.go lines 40-47): gob decode; any decoding failure
is reported as `ErrFailedToUnmarshalState`. -/
def bytesToState (bs : List Nat) : Except StateError State :=
  match parseState bs with
  | some s => Except.ok s
  | none => Except.error StateError.errFailedToUnmarshalState


theorem parseNat_encNat (n : Nat) (r : List Nat) :
    parseNat (encNat n ++ r) = some (n, r) := by
  have h : encNat n ++ r = (natDigits n).length :: (natDigits n ++ r) := by
    unfold encNat; rw [List.cons_append]
  rw [h]
  simp only [parseNat]
  rw [if_pos (by rw [List.length_append]; omega),
    List.take_left, List.drop_left, natFromDigits_natDigits]

theorem parseInt_encInt (x : Int) (r : List Nat) :
    parseInt (encInt x ++ r) = some (x, r) := by
  unfold encInt
  rw [List.cons_append]
  simp only [parseInt, parseNat_encNat]
  by_cases h : x < 0
  · rw [if_pos h, if_pos (show (1 : Nat) = 1 from rfl)]
    have hx : -(x.natAbs : Int) = x := by omega
    rw [hx]
  · rw [if_neg h, if_neg (show ¬ (0 : Nat) = 1 by omega)]
    have hx : (x.natAbs : Int) = x := by omega
    rw [hx]

theorem parseByteSeq_encBytes (bs : GoBytes) (r : List Nat) :
    parseByteSeq (encBytes bs ++ r) = some (bs, r) := by
  unfold encBytes
  rw [List.cons_append]
  simp only [parseByteSeq]
  rw [if_pos (by rw [List.length_append]; omega), List.take_left, List.drop_left]

theorem parseVoterList_encVoterList (vs : List (GoBytes × Int)) (r : List Nat) :
    parseVoterList vs.length (encVoterList vs ++ r) = some (vs, r) := by
  induction vs generalizing r with
  | nil => rfl
  | cons kv rest ih =>
    obtain ⟨k, w⟩ := kv
    show parseVoterList (rest.length + 1) (encVoterList ((k, w) :: rest) ++ r) = _
    unfold encVoterList
    rw [List.append_assoc, List.append_assoc]
    simp only [parseVoterList, parseByteSeq_encBytes, parseInt_encInt, ih r]

theorem parseVoters_encVoters (vs : List (GoBytes × Int)) (r : List Nat) :
    parseVoters (encVoters vs ++ r) = some (vs, r) := by
  unfold encVoters
  rw [List.cons_append]
  simp only [parseVoters]
  exact parseVoterList_encVoterList vs r

theorem parseField_hit (idx : Nat) (p : List Nat → Option (α × List Nat)) (d : α)
    (rest : List Nat) : parseField idx p d (idx :: rest) = p rest := by
  simp [parseField]

theorem parseField_skip (idx b : Nat) (p : List Nat → Option (α × List Nat)) (d : α)
    (rest : List Nat) (hb : ¬ b = idx) :
    parseField idx p d (b :: rest) = some (d, b :: rest) := by
  simp [parseField, hb]

/-- The remainder of a gob stream begins with a byte that is not the field
number `idx`: decoding field `idx` there treats the field as omitted. -/
def FirstOk (idx : Nat) (l : List Nat) : Prop :=
  ∃ b t, l = b :: t ∧ ¬ b = idx

theorem FirstOk_cons (idx b : Nat) (t : List Nat) (hb : ¬ b = idx) :
    FirstOk idx (b :: t) := ⟨b, t, rfl, hb⟩

theorem FirstOk_encField (idx j : Nat) (pres : Prop) [Decidable pres]
    (pl rest : List Nat) (hj : ¬ j = idx) (hrest : FirstOk idx rest) :
    FirstOk idx (encField j pres pl ++ rest) := by
  unfold encField
  split_ifs with h
  · exact ⟨j, pl ++ rest, List.cons_append j pl rest, hj⟩
  · rw [List.nil_append]
    exact hrest

/-- Decoding one optionally-present field from its own transmission followed
by the rest of the stream: if present the payload decodes to the field value,
if omitted the zero value `d` is the field value, and the rest's first byte
rules out consuming past the field. -/
theorem parseField_over (idx : Nat) (p : List Nat → Option (α × List Nat))
    (d v : α) (pres : Prop) [Decidable pres] (payload rest : List Nat)
    (hp : pres → p (payload ++ rest) = some (v, rest))
    (hd : ¬ pres → d = v)
    (hrest : FirstOk idx rest) :
    parseField idx p d (encField idx pres payload ++ rest) = some (v, rest) := by
  unfold encField
  split_ifs with h
  · rw [List.cons_append, parseField_hit]
    exact hp h
  · rw [List.nil_append]
    obtain ⟨b, t, rfl, hb⟩ := hrest
    rw [parseField_skip idx b p d t hb, hd h]

/-- Decoding an always-present field. -/
theorem parseField_always (idx : Nat) (p : List Nat → Option (α × List Nat))
    (d v : α) (payload rest : List Nat)
    (hp : p (payload ++ rest) = some (v, rest)) :
    parseField idx p d (encField idx True payload ++ rest) = some (v, rest) := by
  unfold encField
  rw [if_pos trivial, List.cons_append, parseField_hit]
  exact hp

theorem stateToBytes_bytesToState (s : State)
    (hch : ¬ s.CodeHash = some []) (hv : ¬ s.Voters = some []) :
    bytesToState (stateToBytes s) = Except.ok s := by
  obtain ⟨nonce, bal, root, ch, cand, vw, votee, voters⟩ := s
  simp only at hch hv
  set e9 : List Nat := [0] with he9
  set e8 : List Nat :=
    encField 8 (¬ (Option.getD voters []) = []) (encVoters (Option.getD voters [])) ++ e9 with he8
  set e7 : List Nat := encField 7 (¬ votee = []) (encBytes votee) ++ e8 with he7
  set e6 : List Nat := encField 6 True (encInt vw) ++ e7 with he6
  set e5 : List Nat := encField 5 (cand = true) [1] ++ e6 with he5
  set e4 : List Nat :=
    encField 4 (¬ (Option.getD ch []) = []) (encBytes (Option.getD ch [])) ++ e5 with he4
  set e3 : List Nat := encField 3 (¬ root = zeroRoot) (encBytes root) ++ e4 with he3
  set e2 : List Nat := encField 2 True (encInt bal) ++ e3 with he2
  set e1 : List Nat := encField 1 (¬ nonce = 0) (encNat nonce) ++ e2 with he1
  have hdec : stateToBytes ⟨nonce, bal, root, ch, cand, vw, votee, voters⟩ = e1 := by
    rw [he1, he2, he3, he4, he5, he6, he7, he8, he9]
    simp [stateToBytes, List.append_assoc]
  -- first-byte facts for the possibly-omitted fields
  have f9 : ∀ idx, ¬ (0 : Nat) = idx → FirstOk idx e9 := fun idx h => FirstOk_cons idx 0 [] h
  have f8 : FirstOk 8 e9 := f9 8 (by decide)
  have f7 : FirstOk 7 e8 := FirstOk_encField 7 8 _ _ e9 (by decide) (f9 7 (by decide))
  have f5 : FirstOk 5 e6 := by
    rw [he6]
    exact FirstOk_encField 5 6 True _ e7 (by decide)
      (FirstOk_encField 5 7 _ _ e8 (by decide)
        (FirstOk_encField 5 8 _ _ e9 (by decide) (f9 5 (by decide))))
  have f4 : FirstOk 4 e5 := by
    rw [he5]
    exact FirstOk_encField 4 5 _ _ e6 (by decide) (by
      rw [he6]
      exact FirstOk_encField 4 6 True _ e7 (by decide)
        (FirstOk_encField 4 7 _ _ e8 (by decide)
          (FirstOk_encField 4 8 _ _ e9 (by decide) (f9 4 (by decide)))))
  have f3 : FirstOk 3 e4 := by
    rw [he4]
    refine FirstOk_encField 3 4 _ _ e5 (by decide) ?_
    rw [he5]
    refine FirstOk_encField 3 5 _ _ e6 (by decide) ?_
    rw [he6]
    exact FirstOk_encField 3 6 True _ e7 (by decide)
      (FirstOk_encField 3 7 _ _ e8 (by decide)
        (FirstOk_encField 3 8 _ _ e9 (by decide) (f9 3 (by decide))))
  have f1 : FirstOk 1 e2 := by
    rw [he2]
    exact FirstOk_encField 1 2 True _ e3 (by decide) (by
      rw [he3]
      refine FirstOk_encField 1 3 _ _ e4 (by decide) ?_
      rw [he4]
      refine FirstOk_encField 1 4 _ _ e5 (by decide) ?_
      rw [he5]
      refine FirstOk_encField 1 5 _ _ e6 (by decide) ?_
      rw [he6]
      exact FirstOk_encField 1 6 True _ e7 (by decide)
        (FirstOk_encField 1 7 _ _ e8 (by decide)
          (FirstOk_encField 1 8 _ _ e9 (by decide) (f9 1 (by decide)))))
  -- the eight field-decoding steps
  have h8 : parseField 8 parseVotersField none e8 = some (voters, e9) := by
    rw [he8]
    refine parseField_over 8 parseVotersField none voters _ _ e9 ?_ ?_ f8
    · intro hpres
      unfold parseVotersField
      rw [parseVoters_encVoters]
      cases voters with
      | none => exact absurd rfl hpres
      | some vl => rfl
    · intro hpres
      cases voters with
      | none => rfl
      | some vl =>
        exfalso
        apply hv
        rw [Option.getD_some] at hpres
        rw [not_not.mp hpres]
  have h7 : parseField 7 parseByteSeq [] e7 = some (votee, e8) := by
    rw [he7]
    exact parseField_over 7 parseByteSeq [] votee _ _ e8
      (fun _ => parseByteSeq_encBytes votee e8) (fun h => (not_not.mp h).symm) f7
  have h6 : parseField 6 parseInt 0 e6 = some (vw, e7) := by
    rw [he6]
    exact parseField_always 6 parseInt 0 vw _ e7 (parseInt_encInt vw e7)
  have h5 : parseField 5 parseBool false e5 = some (cand, e6) := by
    rw [he5]
    refine parseField_over 5 parseBool false cand _ _ e6 ?_ ?_ f5
    · intro hpres
      rw [hpres]
      rfl
    · intro hpres
      cases cand with
      | false => rfl
      | true => exact absurd rfl hpres
  have h4 : parseField 4 parseCodeHash none e4 = some (ch, e5) := by
    rw [he4]
    refine parseField_over 4 parseCodeHash none ch _ _ e5 ?_ ?_ f4
    · intro hpres
      unfold parseCodeHash
      rw [parseByteSeq_encBytes]
      cases ch with
      | none => exact absurd rfl hpres
      | some bs => rfl
    · intro hpres
      cases ch with
      | none => rfl
      | some bs =>
        exfalso
        apply hch
        rw [Option.getD_some] at hpres
        rw [not_not.mp hpres]
  have h3 : parseField 3 parseByteSeq zeroRoot e3 = some (root, e4) := by
    rw [he3]
    exact parseField_over 3 parseByteSeq zeroRoot root _ _ e4
      (fun _ => parseByteSeq_encBytes root e4) (fun h => (not_not.mp h).symm) f3
  have h2 : parseField 2 parseInt 0 e2 = some (bal, e3) := by
    rw [he2]
    exact parseField_always 2 parseInt 0 bal _ e3 (parseInt_encInt bal e3)
  have h1 : parseField 1 parseNat 0 e1 = some (nonce, e2) := by
    rw [he1]
    exact parseField_over 1 parseNat 0 nonce _ _ e2
      (fun _ => parseNat_encNat nonce e2) (fun h => (not_not.mp h).symm) f1
  unfold bytesToState
  rw [hdec]
  simp only [parseState, h1, h2, h3, h4, h5, h6, h7, h8, Option.bind_eq_bind,
    Option.some_bind, he9]

/-- A concrete account state with a non-empty `Voters` map. -/
def demoVoterState : State :=
  { Nonce := 3, Balance := 100, Root := zeroRoot, CodeHash := some [7, 8],
    IsCandidate := true, VotingWeight := 9, Votee := [4],
    Voters := some [([1], 2)] }

/-- The same state with the `Voters` map nil. -/
def demoNoVoterState : State :=
  { Nonce := 3, Balance := 100, Root := zeroRoot, CodeHash := some [7, 8],
    IsCandidate := true, VotingWeight := 9, Votee := [4], Voters := none }

/-- C4 counterexample: the `Voters` map IS included in the serialized form.
Two states that agree on every field except `Voters` serialize to different
byte strings, and deserializing the encoding of the one with a non-empty
`Voters` map returns that map intact — refuting "the voters map is never
included in the serialized form" at this concrete input. -/
theorem voters_in_encoding_counterexample_C4 :
    demoVoterState =
      { demoNoVoterState with Voters := some [([1], 2)] } ∧
    ¬ stateToBytes demoVoterState = stateToBytes demoNoVoterState ∧
    bytesToState (stateToBytes demoVoterState) = Except.ok demoVoterState := by
  refine ⟨rfl, by decide, ?_⟩
  rfl

/-- C4 (amended): serializing with `stateToBytes` and then deserializing with
`bytesToState` succeeds and returns a state equal to the original on every
field, `Voters` included, for every well-formed state (non-nil `Balance` and
`VotingWeight`, and `CodeHash` / `Voters` not the empty-but-non-nil slice/map,
which gob transmits as absent); and decoding truncated or malformed input
fails with `ErrFailedToUnmarshalState` rather than returning a state. -/
theorem state_codec_roundtrip_C4 :
    (∀ s : State, ¬ s.CodeHash = some [] → ¬ s.Voters = some [] →
      bytesToState (stateToBytes s) = Except.ok s) ∧
    bytesToState ((stateToBytes demoVoterState).dropLast) =
      Except.error StateError.errFailedToUnmarshalState ∧
    bytesToState [] = Except.error StateError.errFailedToUnmarshalState := by
  refine ⟨stateToBytes_bytesToState, ?_, rfl⟩
  rfl

/-- C4 witness: the round trip of `state_codec_roundtrip_C4` at the concrete
state `demoVoterState`. -/
theorem state_codec_roundtrip_C4_witness :
    ¬ demoVoterState.CodeHash = some [] ∧ ¬ demoVoterState.Voters = some [] ∧
    bytesToState (stateToBytes demoVoterState) = Except.ok demoVoterState :=
  ⟨by decide, by decide,
   state_codec_roundtrip_C4.1 demoVoterState (by decide) (by decide)⟩

/-!
## `clone` (state.go lines 68-82)

`clone` does `s := *st` — a shallow struct copy under which the `*big.Int`
fields and the `CodeHash` slice still alias the original — and then
re-allocates: `s.Balance = new(big.Int).Set(st.Balance)`,
`s.VotingWeight = new(big.Int).Set(st.VotingWeight)`, a fresh byte array
copied from `st.CodeHash` when that is non-nil, and `s.Voters = nil`.
The value-independence part of the claim is about pointer aliasing, so here
the `*big.Int` and `[]byte` fields are embedded as indices into explicit
heaps (`IntHeap` for `big.Int` cells, `BytesHeap` for byte arrays), with
allocation appending a fresh cell. -/

abbrev IntHeap := List Int

abbrev BytesHeap := List GoBytes

/-- Dereference a `*big.Int`. -/
def readInt (h : IntHeap) (p : Nat) : Int := h.getD p 0

/-- In-place mutation of a `big.Int` cell (what `Add`/`Sub`/`Set` do). -/
def writeInt (h : IntHeap) (p : Nat) (v : Int) : IntHeap := h.set p v

/-- `new(big.Int).Set(v)`: a fresh cell holding `v`. -/
def allocInt (h : IntHeap) (v : Int) : IntHeap × Nat := (h ++ [v], h.length)

/-- Dereference a byte-array pointer. -/
def readBytes (h : BytesHeap) (p : Nat) : GoBytes := h.getD p []

/-- `make([]byte, len)` followed by `copy`: a fresh array holding `v`. -/
def allocBytes (h : BytesHeap) (v : GoBytes) : BytesHeap × Nat := (h ++ [v], h.length)

/-- `state.State` with its pointer fields explicit: `Balance`, `VotingWeight`
and (when non-nil) `CodeHash` are heap indices, `Voters` maps keys to
`*big.Int` indices; the remaining fields are plain values. -/
structure StateRef where
  Nonce : Nat
  Balance : Nat
  Root : GoBytes
  CodeHash : Option Nat
  IsCandidate : Bool
  VotingWeight : Nat
  Votee : GoBytes
  Voters : Option (List (GoBytes × Nat))

/-- `(st *State) clone()` (state.go lines 68-82): shallow copy, then fresh
`Balance` and `VotingWeight` cells set from the originals, a fresh `CodeHash`
array copied byte-for-byte when non-nil, and `Voters` set to nil.  Returns
the two heaps after the allocations together with the copy. -/
def StateRef.clone (hi : IntHeap) (hb : BytesHeap) (st : StateRef) :
    IntHeap × BytesHeap × StateRef :=
  let a1 := allocInt hi (readInt hi st.Balance)
  let a2 := allocInt a1.1 (readInt a1.1 st.VotingWeight)
  match st.CodeHash with
  | some cp =>
    let a3 := allocBytes hb (readBytes hb cp)
    let c : StateRef :=
      { st with
        Balance := a1.2
        VotingWeight := a2.2
        CodeHash := some a3.2
        Voters := none }
    (a2.1, a3.1, c)
  | none =>
    let c : StateRef :=
      { st with
        Balance := a1.2
        VotingWeight := a2.2
        Voters := none }
    (a2.1, hb, c)

theorem getD_append_lt {α : Type} (l l2 : List α) (n : Nat) (d : α)
    (h : n < l.length) : (l ++ l2).getD n d = l.getD n d := by
  induction l generalizing n with
  | nil => simp at h
  | cons a t ih =>
    cases n with
    | zero => rfl
    | succ m =>
      simp only [List.cons_append, List.getD_cons_succ]
      exact ih m (by simpa using h)

theorem getD_append_len {α : Type} (l : List α) (v : α) (l2 : List α) (d : α) :
    (l ++ v :: l2).getD l.length d = v := by
  induction l with
  | nil => rfl
  | cons a t ih => simpa using ih

theorem getD_set_ne {α : Type} (l : List α) (i j : Nat) (v d : α)
    (h : ¬ i = j) : (l.set i v).getD j d = l.getD j d := by
  induction l generalizing i j with
  | nil => rfl
  | cons a t ih =>
    cases i with
    | zero =>
      cases j with
      | zero => exact absurd rfl h
      | succ m => rfl
    | succ n =>
      cases j with
      | zero => rfl
      | succ m =>
        simp only [List.set_cons_succ, List.getD_cons_succ]
        exact ih n m (by omega)

theorem readInt_append_lt (l l2 : IntHeap) (p : Nat) (h : p < l.length) :
    readInt (l ++ l2) p = readInt l p :=
  getD_append_lt l l2 p 0 h

theorem readInt_append_self (l : IntHeap) (v : Int) :
    readInt (l ++ [v]) l.length = v :=
  getD_append_len l v [] 0

theorem readBytes_append_self (h : BytesHeap) (v : GoBytes) :
    readBytes (h ++ [v]) h.length = v :=
  getD_append_len h v [] []

theorem readInt_write_ne (l : IntHeap) (i j : Nat) (v : Int) (h : ¬ i = j) :
    readInt (writeInt l i v) j = readInt l j :=
  getD_set_ne l i j v 0 h

/-- A concrete referenced state for the clone witness: balance cell 0,
voting-weight cell 1 in a two-cell heap, code hash array 0 in a one-array
heap. -/
def demoRefState : StateRef :=
  { Nonce := 4, Balance := 0, Root := [2], CodeHash := some 0, IsCandidate := true,
    VotingWeight := 1, Votee := [3], Voters := some [([1], 0)] }

/-- C6: `clone` returns a state equal to the original on every field except
`Voters` (nil in the copy): same nonce, root, candidate flag and votee,
`Balance` and `VotingWeight` cells holding the same values, and `CodeHash`
bytes equal when present (nil stays nil).  The copy's `Balance` and
`VotingWeight` cells and its `CodeHash` array are fresh (distinct pointers),
so mutating the clone's balance cell leaves the original's balance value
unchanged. -/
theorem clone_value_independent_C6 (hi : IntHeap) (hb : BytesHeap) (st : StateRef)
    (hbal : st.Balance < hi.length) (hvw : st.VotingWeight < hi.length)
    (hch : ∀ cp, st.CodeHash = some cp → cp < hb.length) :
    (StateRef.clone hi hb st).2.2.Nonce = st.Nonce ∧
    readInt (StateRef.clone hi hb st).1 (StateRef.clone hi hb st).2.2.Balance =
      readInt hi st.Balance ∧
    (StateRef.clone hi hb st).2.2.Root = st.Root ∧
    (st.CodeHash = none → (StateRef.clone hi hb st).2.2.CodeHash = none) ∧
    (∀ cp, st.CodeHash = some cp →
      ∃ cp2, (StateRef.clone hi hb st).2.2.CodeHash = some cp2 ∧
        readBytes (StateRef.clone hi hb st).2.1 cp2 = readBytes hb cp ∧
        ¬ cp2 = cp) ∧
    (StateRef.clone hi hb st).2.2.IsCandidate = st.IsCandidate ∧
    readInt (StateRef.clone hi hb st).1 (StateRef.clone hi hb st).2.2.VotingWeight =
      readInt hi st.VotingWeight ∧
    (StateRef.clone hi hb st).2.2.Votee = st.Votee ∧
    (StateRef.clone hi hb st).2.2.Voters = none ∧
    ¬ (StateRef.clone hi hb st).2.2.Balance = st.Balance ∧
    ¬ (StateRef.clone hi hb st).2.2.VotingWeight = st.VotingWeight ∧
    (∀ v, readInt
        (writeInt (StateRef.clone hi hb st).1 (StateRef.clone hi hb st).2.2.Balance v)
        st.Balance = readInt hi st.Balance) := by
  have hb1 : st.Balance < (hi ++ [readInt hi st.Balance]).length := by
    rw [List.length_append]; simp; omega
  have e1 : readInt ((hi ++ [readInt hi st.Balance]) ++
      [readInt (hi ++ [readInt hi st.Balance]) st.VotingWeight]) hi.length =
      readInt hi st.Balance := by
    rw [readInt_append_lt _ _ _ (by rw [List.length_append]; simp)]
    exact readInt_append_self hi _
  have evw : readInt (hi ++ [readInt hi st.Balance]) st.VotingWeight =
      readInt hi st.VotingWeight :=
    readInt_append_lt _ _ _ hvw
  have e2 : readInt ((hi ++ [readInt hi st.Balance]) ++
      [readInt (hi ++ [readInt hi st.Balance]) st.VotingWeight])
      (hi ++ [readInt hi st.Balance]).length = readInt hi st.VotingWeight := by
    rw [readInt_append_self]
    exact evw
  have e3 : ∀ v, readInt
      (writeInt ((hi ++ [readInt hi st.Balance]) ++
        [readInt (hi ++ [readInt hi st.Balance]) st.VotingWeight]) hi.length v)
      st.Balance = readInt hi st.Balance := by
    intro v
    rw [readInt_write_ne _ _ _ _ (by omega)]
    rw [readInt_append_lt _ _ _ hb1, readInt_append_lt _ _ _ hbal]
  have hfvw : ¬ (hi ++ [readInt hi st.Balance]).length = st.VotingWeight := by
    rw [List.length_append]; simp; omega
  cases hc : st.CodeHash with
  | none =>
    have hclone : StateRef.clone hi hb st =
        ((hi ++ [readInt hi st.Balance]) ++
          [readInt (hi ++ [readInt hi st.Balance]) st.VotingWeight],
         hb,
         { st with
           Balance := hi.length
           VotingWeight := (hi ++ [readInt hi st.Balance]).length
           Voters := none }) := by
      simp [StateRef.clone, hc, allocInt, allocBytes]
    rw [hclone]
    refine ⟨rfl, e1, rfl, fun _ => hc, ?_, rfl, e2, rfl, rfl, ?_, hfvw, e3⟩
    · intro cp hcp
      exact absurd hcp (by simp)
    · show ¬ hi.length = st.Balance
      omega
  | some cq =>
    have hclone : StateRef.clone hi hb st =
        ((hi ++ [readInt hi st.Balance]) ++
          [readInt (hi ++ [readInt hi st.Balance]) st.VotingWeight],
         hb ++ [readBytes hb cq],
         { st with
           Balance := hi.length
           VotingWeight := (hi ++ [readInt hi st.Balance]).length
           CodeHash := some hb.length
           Voters := none }) := by
      simp [StateRef.clone, hc, allocInt, allocBytes]
    rw [hclone]
    refine ⟨rfl, e1, rfl, fun h => absurd h (by simp), ?_, rfl, e2, rfl, rfl,
      ?_, hfvw, e3⟩
    · intro cp hcp
      have hcpeq : cp = cq := (Option.some.inj hcp).symm
      subst hcpeq
      have hlt : cp < hb.length := hch cp hc
      exact ⟨hb.length, rfl, readBytes_append_self hb _, by omega⟩
    · show ¬ hi.length = st.Balance
      omega

/-- C6 witness: clone on a concrete two-cell heap; the copy's `Voters` is nil
and mutating the copy's balance cell (to 42) leaves the original's balance
value unchanged. -/
theorem clone_value_independent_C6_witness :
    demoRefState.Balance < ([5, 7] : IntHeap).length ∧
    demoRefState.VotingWeight < ([5, 7] : IntHeap).length ∧
    (StateRef.clone [5, 7] [[9]] demoRefState).2.2.Voters = none ∧
    readInt (writeInt (StateRef.clone [5, 7] [[9]] demoRefState).1
        (StateRef.clone [5, 7] [[9]] demoRefState).2.2.Balance 42)
      demoRefState.Balance = readInt [5, 7] demoRefState.Balance :=
  ⟨by decide, by decide,
   (clone_value_independent_C6 [5, 7] [[9]] demoRefState (by decide) (by decide)
      (fun cp hcp => by rw [← Option.some.inj hcp]; decide)).2.2.2.2.2.2.2.2.1,
   (clone_value_independent_C6 [5, 7] [[9]] demoRefState (by decide) (by decide)
      (fun cp hcp => by rw [← Option.some.inj hcp]; decide)).2.2.2.2.2.2.2.2.2.2.2 42⟩

/-!
## `server/itx/server.go`

The `Server` lifecycle, the `bcService` subscriber, and `NewServer`.
Collaborator packages (`actpool`, `blocksync`, `consensus`, `blockchain`,
`network`, `dispatch`, `explorer`, `proto`) are outside the excerpt; their
methods enter the model as an environment of uninterpreted functions
returning Go errors (`none` = nil), and the embedding records which
collaborator calls the excerpt's control flow performs, in order.
-/

/-- The subsystems whose lifecycle `Server.Start` / `Server.Stop` manage. -/
inductive Subsys where
  | chain
  | dispatcher
  | consensus
  | blocksync
  | p2p
  | explorer
deriving DecidableEq

/-- `(s *Server) Start(ctx)` (server.go lines 122-142): starts chain,
dispatcher, consensus, blocksync, p2p, explorer, in that order, returning a
wrapped error at the first failure.  `ok` says which subsystem starts
succeed; the result is the sequence of subsystems on which start was
invoked, paired with the subsystem whose failure aborted the sequence
(`none` = overall nil error). -/
def Server.Start (ok : Subsys → Bool) : List Subsys × Option Subsys :=
  if ok Subsys.chain = false then
    ([Subsys.chain], some Subsys.chain)
  else if ok Subsys.dispatcher = false then
    ([Subsys.chain, Subsys.dispatcher], some Subsys.dispatcher)
  else if ok Subsys.consensus = false then
    ([Subsys.chain, Subsys.dispatcher, Subsys.consensus], some Subsys.consensus)
  else if ok Subsys.blocksync = false then
    ([Subsys.chain, Subsys.dispatcher, Subsys.consensus, Subsys.blocksync],
     some Subsys.blocksync)
  else if ok Subsys.p2p = false then
    ([Subsys.chain, Subsys.dispatcher, Subsys.consensus, Subsys.blocksync,
      Subsys.p2p], some Subsys.p2p)
  else if ok Subsys.explorer = false then
    ([Subsys.chain, Subsys.dispatcher, Subsys.consensus, Subsys.blocksync,
      Subsys.p2p, Subsys.explorer], some Subsys.explorer)
  else
    ([Subsys.chain, Subsys.dispatcher, Subsys.consensus, Subsys.blocksync,
      Subsys.p2p, Subsys.explorer], none)

/-- `(s *Server) Stop(ctx)` (server.go lines 145-165): stops explorer, p2p,
consensus, blocksync, dispatcher, chain, in that order, returning a wrapped
error at the first failure. -/
def Server.Stop (ok : Subsys → Bool) : List Subsys × Option Subsys :=
  if ok Subsys.explorer = false then
    ([Subsys.explorer], some Subsys.explorer)
  else if ok Subsys.p2p = false then
    ([Subsys.explorer, Subsys.p2p], some Subsys.p2p)
  else if ok Subsys.consensus = false then
    ([Subsys.explorer, Subsys.p2p, Subsys.consensus], some Subsys.consensus)
  else if ok Subsys.blocksync = false then
    ([Subsys.explorer, Subsys.p2p, Subsys.consensus, Subsys.blocksync],
     some Subsys.blocksync)
  else if ok Subsys.dispatcher = false then
    ([Subsys.explorer, Subsys.p2p, Subsys.consensus, Subsys.blocksync,
      Subsys.dispatcher], some Subsys.dispatcher)
  else if ok Subsys.chain = false then
    ([Subsys.explorer, Subsys.p2p, Subsys.consensus, Subsys.blocksync,
      Subsys.dispatcher, Subsys.chain], some Subsys.chain)
  else
    ([Subsys.explorer, Subsys.p2p, Subsys.consensus, Subsys.blocksync,
      Subsys.dispatcher, Subsys.chain], none)

/-- C3 counterexample: `Stop` is NOT the exact reverse of `Start`.  With
every subsystem succeeding, `Start` runs chain, dispatcher, consensus,
blocksync, p2p, explorer — but `Stop` runs explorer, p2p, consensus,
blocksync, dispatcher, chain, which differs from the reversed start order
(the exact reverse would stop blocksync before consensus). -/
theorem stop_not_reverse_counterexample_C3 :
    (Server.Start (fun _ => true)).1 =
      [Subsys.chain, Subsys.dispatcher, Subsys.consensus, Subsys.blocksync,
        Subsys.p2p, Subsys.explorer] ∧
    ¬ (Server.Stop (fun _ => true)).1 =
        ((Server.Start (fun _ => true)).1).reverse := by
  decide

/-- C3 (amended): `Start` starts chain/state store, dispatcher, consensus,
block-sync, network transport, reporting façade, in that order; `Stop` stops
them in reverse of the start order except that consensus and block-sync keep
their start-relative order (consensus is stopped before block-sync):
explorer, p2p, consensus, blocksync, dispatcher, chain. -/
theorem start_stop_order_C3 :
    (Server.Start (fun _ => true)).1 =
      [Subsys.chain, Subsys.dispatcher, Subsys.consensus, Subsys.blocksync,
        Subsys.p2p, Subsys.explorer] ∧
    (Server.Stop (fun _ => true)).1 =
      [Subsys.explorer, Subsys.p2p, Subsys.consensus, Subsys.blocksync,
        Subsys.dispatcher, Subsys.chain] := by
  decide

/-- Handler errors of the collaborator subsystems (opaque to the routing). -/
abbrev GoError := Nat

/-- `blockchain.Block` values, opaque to the routing. -/
abbrev Block := Nat

/-- `pb.BlockSync` sync-request payloads, opaque to the routing. -/
abbrev BlockSyncPb := Nat

/-- `proto.Message` values forwarded verbatim, opaque to the routing. -/
abbrev ProtoMessage := Nat

/-- Modelled from the spec: an action is polymorphic over Transfer / Vote /
Execution, each carrying a sender address, a nonce, and kind-specific
payload (amount+recipient; votee; contract call data); the `action` package
is not part of the excerpt. -/
structure Transfer where
  sender : GoBytes
  nonce : Nat
  amount : Int
  recipient : GoBytes
deriving DecidableEq

/-- Modelled from the spec: the Vote action kind. -/
structure Vote where
  sender : GoBytes
  nonce : Nat
  votee : GoBytes
deriving DecidableEq

/-- Modelled from the spec: the contract Execution action kind. -/
structure Execution where
  sender : GoBytes
  nonce : Nat
  callData : GoBytes
deriving DecidableEq

/-- Modelled from the spec: the protobuf action message `pb.ActionPb`.  Its
`GetTransfer` / `GetVote` / `GetExecution` accessors return nil for an absent
payload; `ConvertFromActionPb` builds the concrete action value carried by
the message, so the payloads are embedded here directly. -/
structure ActionPb where
  transfer : Option Transfer
  vote : Option Vote
  execution : Option Execution
deriving DecidableEq

/-- The collaborator methods `bcService` calls: the action pool's `AddTsf` /
`AddVote` / `AddExecution`, the block syncer's `ProcessBlock` /
`ProcessBlockSync` / `ProcessSyncRequest`, and the consensus handlers.
All are outside the excerpt and enter as uninterpreted functions returning a
Go error (`none` = nil). -/
structure BcEnv where
  addTsf : Transfer → Option GoError
  addVote : Vote → Option GoError
  addExecution : Execution → Option GoError
  processBlock : Block → Option GoError
  processBlockSync : Block → Option GoError
  processSyncRequest : GoBytes → BlockSyncPb → Option GoError
  handleViewChange : ProtoMessage → Option GoError
  handleBlockPropose : ProtoMessage → Option GoError

/-- A call performed on the action pool. -/
inductive PoolCall where
  | addTsf (t : Transfer)
  | addVote (v : Vote)
  | addExecution (e : Execution)
deriving DecidableEq

/-- `(bcs *bcService) HandleAction` (server.go lines 48-72): if the message
carries a Transfer, convert and `AddTsf` it, returning that call's error;
else if it carries a Vote, convert and `AddVote`; else if it carries an
Execution, convert and `AddExecution`; otherwise fall through and return
nil.  The result records the pool calls performed and the returned error. -/
def bcService.HandleAction (env : BcEnv) (act : ActionPb) :
    List PoolCall × Option GoError :=
  match act.transfer with
  | some pbTsf => ([PoolCall.addTsf pbTsf], env.addTsf pbTsf)
  | none =>
    match act.vote with
    | some pbVote => ([PoolCall.addVote pbVote], env.addVote pbVote)
    | none =>
      match act.execution with
      | some pbExecution =>
        ([PoolCall.addExecution pbExecution], env.addExecution pbExecution)
      | none => ([], none)

/-- `HandleBlock` (server.go lines 74-76): forwards to `ProcessBlock`. -/
def bcService.HandleBlock (env : BcEnv) (blk : Block) : Option GoError :=
  env.processBlock blk

/-- `HandleBlockSync` (server.go lines 78-80): forwards to `ProcessBlockSync`. -/
def bcService.HandleBlockSync (env : BcEnv) (blk : Block) : Option GoError :=
  env.processBlockSync blk

/-- `HandleSyncRequest` (server.go lines 82-84): forwards to
`ProcessSyncRequest`. -/
def bcService.HandleSyncRequest (env : BcEnv) (sender : GoBytes)
    (sync : BlockSyncPb) : Option GoError :=
  env.processSyncRequest sender sync

/-- `HandleViewChange` (server.go lines 86-88): forwards the message verbatim
to the consensus handler. -/
def bcService.HandleViewChange (env : BcEnv) (msg : ProtoMessage) : Option GoError :=
  env.handleViewChange msg

/-- `HandleBlockPropose` (server.go lines 90-92): forwards the message
verbatim to the consensus handler. -/
def bcService.HandleBlockPropose (env : BcEnv) (msg : ProtoMessage) : Option GoError :=
  env.handleBlockPropose msg

/-- C8: the chain subscriber routes each message to exactly one designated
subsystem and returns that handler's error: an action message is decoded to
its concrete kind and forwarded to the corresponding action-pool add
operation (Transfer checked first, then Vote, then Execution), `HandleBlock`
forwards to `ProcessBlock`, `HandleBlockSync` to `ProcessBlockSync`,
`HandleSyncRequest` to `ProcessSyncRequest`, and `HandleViewChange` /
`HandleBlockPropose` forward the message verbatim to the consensus
handlers. -/
theorem bcService_routing_C8 (env : BcEnv) (act : ActionPb) (t : Transfer)
    (v : Vote) (e : Execution) (blk : Block) (sender : GoBytes)
    (sync : BlockSyncPb) (msg : ProtoMessage) :
    (act.transfer = some t →
      bcService.HandleAction env act = ([PoolCall.addTsf t], env.addTsf t)) ∧
    (act.transfer = none → act.vote = some v →
      bcService.HandleAction env act = ([PoolCall.addVote v], env.addVote v)) ∧
    (act.transfer = none → act.vote = none → act.execution = some e →
      bcService.HandleAction env act =
        ([PoolCall.addExecution e], env.addExecution e)) ∧
    bcService.HandleBlock env blk = env.processBlock blk ∧
    bcService.HandleBlockSync env blk = env.processBlockSync blk ∧
    bcService.HandleSyncRequest env sender sync = env.processSyncRequest sender sync ∧
    bcService.HandleViewChange env msg = env.handleViewChange msg ∧
    bcService.HandleBlockPropose env msg = env.handleBlockPropose msg := by
  refine ⟨?_, ?_, ?_, rfl, rfl, rfl, rfl, rfl⟩
  · intro h1
    simp [bcService.HandleAction, h1]
  · intro h1 h2
    simp [bcService.HandleAction, h1, h2]
  · intro h1 h2 h3
    simp [bcService.HandleAction, h1, h2, h3]

/-- A concrete transfer for the routing witness. -/
def demoTransfer : Transfer :=
  { sender := [1], nonce := 1, amount := 5, recipient := [2] }

/-- An action message carrying only that transfer. -/
def demoActTsf : ActionPb :=
  { transfer := some demoTransfer, vote := none, execution := none }

/-- The all-nil collaborator environment for the routing witness. -/
def demoBcEnv : BcEnv :=
  { addTsf := fun _ => none
    addVote := fun _ => none
    addExecution := fun _ => none
    processBlock := fun _ => none
    processBlockSync := fun _ => none
    processSyncRequest := fun _ _ => none
    handleViewChange := fun _ => none
    handleBlockPropose := fun _ => none }

/-- C8 witness: a message carrying a transfer is routed to `AddTsf` exactly
once, with that call's (nil) error returned. -/
theorem bcService_routing_C8_witness :
    demoActTsf.transfer = some demoTransfer ∧
    bcService.HandleAction demoBcEnv demoActTsf =
      ([PoolCall.addTsf demoTransfer], demoBcEnv.addTsf demoTransfer) :=
  ⟨rfl,
   (bcService_routing_C8 demoBcEnv demoActTsf demoTransfer
      { sender := [], nonce := 0, votee := [] }
      { sender := [], nonce := 0, callData := [] } 0 [] 0 0).1 rfl⟩

/-- C10: an action message carrying none of the three recognized kinds is
accepted silently: `HandleAction` performs no pool call and returns the nil
error rather than a rejection. -/
theorem handleAction_unrecognized_C10 (env : BcEnv) :
    bcService.HandleAction env
      { transfer := none, vote := none, execution := none } = ([], none) :=
  rfl

/-- The fields of `config.Config` that `NewServer` consults. -/
structure ChainConfig where
  enableFallBackToFreshDB : Bool
  chainDBPath : String
  trieDBPath : String

/-- The collaborators `NewServer` calls: whether the i-th
`blockchain.NewBlockchain` call returns a non-nil chain, and whether
`os.Rename src dst` succeeds. -/
structure OrchEnv where
  newBlockchainOk : Nat → Bool
  renameOk : String → String → Bool

/-- An observable step `NewServer` performs. -/
inductive OrchEvent where
  | newBlockchain
  | rename (src dst : String)
deriving DecidableEq

/-- How `NewServer` ends. -/
inductive NewServerResult where
  /-- returns a non-nil `*Server` (via `newServer`). -/
  | server
  /-- returns nil. -/
  | nilServer
  /-- panics dereferencing the nil chain at `chain.ChainID()` (line 111). -/
  | nilDeref
deriving DecidableEq

/-- `NewServer(cfg)` (server.go lines 95-113): create the blockchain; if that
returned nil and `EnableFallBackToFreshDB` is set, rename the chain DB path
and then the trie DB path aside (appending ".old"), returning nil if either
rename fails, and create the blockchain again; then call `chain.ChainID()` —
a nil-pointer dereference whenever `chain` is still nil — and build the
server.  The result records the collaborator steps in order, and the
outcome. -/
def NewServer (env : OrchEnv) (cfg : ChainConfig) :
    List OrchEvent × NewServerResult :=
  if env.newBlockchainOk 0 = false ∧ cfg.enableFallBackToFreshDB = true then
    if env.renameOk cfg.chainDBPath (cfg.chainDBPath ++ ".old") = false then
      ([OrchEvent.newBlockchain,
        OrchEvent.rename cfg.chainDBPath (cfg.chainDBPath ++ ".old")],
       NewServerResult.nilServer)
    else if env.renameOk cfg.trieDBPath (cfg.trieDBPath ++ ".old") = false then
      ([OrchEvent.newBlockchain,
        OrchEvent.rename cfg.chainDBPath (cfg.chainDBPath ++ ".old"),
        OrchEvent.rename cfg.trieDBPath (cfg.trieDBPath ++ ".old")],
       NewServerResult.nilServer)
    else
      ([OrchEvent.newBlockchain,
        OrchEvent.rename cfg.chainDBPath (cfg.chainDBPath ++ ".old"),
        OrchEvent.rename cfg.trieDBPath (cfg.trieDBPath ++ ".old"),
        OrchEvent.newBlockchain],
       if env.newBlockchainOk 1 = true then NewServerResult.server
       else NewServerResult.nilDeref)
  else
    ([OrchEvent.newBlockchain],
     if env.newBlockchainOk 0 = true then NewServerResult.server
     else NewServerResult.nilDeref)

/-- C7: when the initial blockchain creation fails and the
fall-back-to-fresh-DB flag is set, `NewServer` renames the chain DB path and
the trie DB path aside (appending ".old") and re-initializes a fresh
blockchain before proceeding; if either rename fails it aborts, returning
nil instead of a server. -/
theorem newServer_fallback_C7 (env : OrchEnv) (cfg : ChainConfig)
    (hfail : env.newBlockchainOk 0 = false)
    (hflag : cfg.enableFallBackToFreshDB = true) :
    (env.renameOk cfg.chainDBPath (cfg.chainDBPath ++ ".old") = true →
      env.renameOk cfg.trieDBPath (cfg.trieDBPath ++ ".old") = true →
      (NewServer env cfg).1 =
        [OrchEvent.newBlockchain,
         OrchEvent.rename cfg.chainDBPath (cfg.chainDBPath ++ ".old"),
         OrchEvent.rename cfg.trieDBPath (cfg.trieDBPath ++ ".old"),
         OrchEvent.newBlockchain]) ∧
    (env.renameOk cfg.chainDBPath (cfg.chainDBPath ++ ".old") = false →
      NewServer env cfg =
        ([OrchEvent.newBlockchain,
          OrchEvent.rename cfg.chainDBPath (cfg.chainDBPath ++ ".old")],
         NewServerResult.nilServer)) ∧
    (env.renameOk cfg.chainDBPath (cfg.chainDBPath ++ ".old") = true →
      env.renameOk cfg.trieDBPath (cfg.trieDBPath ++ ".old") = false →
      NewServer env cfg =
        ([OrchEvent.newBlockchain,
          OrchEvent.rename cfg.chainDBPath (cfg.chainDBPath ++ ".old"),
          OrchEvent.rename cfg.trieDBPath (cfg.trieDBPath ++ ".old")],
         NewServerResult.nilServer)) := by
  refine ⟨?_, ?_, ?_⟩
  · intro h1 h2
    simp [NewServer, hfail, hflag, h1, h2]
  · intro h1
    simp [NewServer, hfail, hflag, h1]
  · intro h1 h2
    simp [NewServer, hfail, hflag, h1, h2]

/-- A concrete orchestrator environment: the first blockchain creation fails,
the retry succeeds, renames succeed. -/
def demoOrchEnv : OrchEnv :=
  { newBlockchainOk := fun n => n == 1
    renameOk := fun _ _ => true }

/-- A concrete config with the fallback flag set. -/
def demoCfg : ChainConfig :=
  { enableFallBackToFreshDB := true, chainDBPath := "chain.db",
    trieDBPath := "trie.db" }

/-- C7 witness: with the first creation failing, the flag set and renames
succeeding, `NewServer` renames both paths aside and re-creates the chain. -/
theorem newServer_fallback_C7_witness :
    demoOrchEnv.newBlockchainOk 0 = false ∧
    demoCfg.enableFallBackToFreshDB = true ∧
    (NewServer demoOrchEnv demoCfg).1 =
      [OrchEvent.newBlockchain,
       OrchEvent.rename demoCfg.chainDBPath (demoCfg.chainDBPath ++ ".old"),
       OrchEvent.rename demoCfg.trieDBPath (demoCfg.trieDBPath ++ ".old"),
       OrchEvent.newBlockchain] :=
  ⟨rfl, rfl, (newServer_fallback_C7 demoOrchEnv demoCfg rfl rfl).1 rfl rfl⟩

/-- C9: `NewServer` dereferences the chain at `chain.ChainID()` with no
nil-check outside the fallback branch: if creation fails and the flag is
unset it hits a nil dereference; if creation fails, the fallback runs, and
the retried creation also fails, it likewise hits a nil dereference; it is
free of nil dereference whenever blockchain creation succeeds. -/
theorem newServer_nil_deref_C9 (env : OrchEnv) (cfg : ChainConfig) :
    (env.newBlockchainOk 0 = false → cfg.enableFallBackToFreshDB = false →
      (NewServer env cfg).2 = NewServerResult.nilDeref) ∧
    (env.newBlockchainOk 0 = false → cfg.enableFallBackToFreshDB = true →
      env.renameOk cfg.chainDBPath (cfg.chainDBPath ++ ".old") = true →
      env.renameOk cfg.trieDBPath (cfg.trieDBPath ++ ".old") = true →
      env.newBlockchainOk 1 = false →
      (NewServer env cfg).2 = NewServerResult.nilDeref) ∧
    (env.newBlockchainOk 0 = true →
      (NewServer env cfg).2 = NewServerResult.server) := by
  refine ⟨?_, ?_, ?_⟩
  · intro h1 h2
    simp [NewServer, h1, h2]
  · intro h1 h2 h3 h4 h5
    simp [NewServer, h1, h2, h3, h4, h5]
  · intro h1
    simp [NewServer, h1]

/-- An orchestrator environment in which every blockchain creation fails. -/
def demoOrchEnvFail : OrchEnv :=
  { newBlockchainOk := fun _ => false
    renameOk := fun _ _ => true }

/-- A concrete config with the fallback flag unset. -/
def demoCfgNoFallback : ChainConfig :=
  { enableFallBackToFreshDB := false, chainDBPath := "chain.db",
    trieDBPath := "trie.db" }

/-- C9 witness: creation fails and the flag is unset — `NewServer` ends in
the nil dereference at `chain.ChainID()`. -/
theorem newServer_nil_deref_C9_witness :
    demoOrchEnvFail.newBlockchainOk 0 = false ∧
    demoCfgNoFallback.enableFallBackToFreshDB = false ∧
    (NewServer demoOrchEnvFail demoCfgNoFallback).2 = NewServerResult.nilDeref :=
  ⟨rfl, rfl, (newServer_nil_deref_C9 demoOrchEnvFail demoCfgNoFallback).1 rfl rfl⟩
